import Mathlib

/-!
# Verification of the face-swap service (`main_fixed.py`)

A shallow embedding of the model-lifecycle and request-pipeline layer of the
face-swap service, together with proofs of the behavioural properties stated
in its specification.  Pure functions of the source are translated to Lean
functions; filesystem and HTTP effects are made explicit by passing the
relevant state (a path → file map, the outcome of a network fetch) as
arguments; Python exceptions become `Except` values threaded through the same
`try`/`except` structure as the source.
-/

/-- One detection result, as produced by the face-analysis engine: a bounding
box `(left, top, right, bottom)` in source-image pixel coordinates and an
opaque identity-embedding payload (abstracted to a `Nat` tag). -/
structure Face where
  bboxLeft : Int
  bboxTop : Int
  bboxRight : Int
  bboxBottom : Int
  embedding : Nat
deriving DecidableEq, Repr, Inhabited

/-- A raised FastAPI `HTTPException(status_code=..., detail=...)`. -/
structure ApiError where
  status : Nat
  detail : String
deriving DecidableEq, Repr

/-- `sort_faces` (main_fixed.py:230-232): Python
`sorted(faces, key=lambda x: x.bbox[0])`, a stable ascending sort by the
bounding box's left coordinate.  Python's `sorted` is a stable sort; we use
the stable `List.insertionSort`, which agrees with it extensionally. -/
def sort_faces (faces : List Face) : List Face :=
  List.insertionSort (fun a b => a.bboxLeft ≤ b.bboxLeft) faces

/-- `get_face` (main_fixed.py:234-246): 1-based selection from the ordered
face list.  `face_id` is a Python `int`, so it is modelled as `Int` (it may be
negative).  The guard `len(faces) < face_id or face_id < 1` raises a 400 with
the exact message of the source; the `except Exception` fallback (unreachable
when the guard passes, kept for structural faithfulness) maps any other
failure of `faces[face_id-1]` to a 500. -/
def get_face (faces : List Face) (face_id : Int) : Except ApiError Face :=
  if (faces.length : Int) < face_id ∨ face_id < 1 then
    Except.error ⟨400, "The image includes only " ++ toString faces.length ++
      " faces, however, you asked for face " ++ toString face_id⟩
  else
    match faces.get? (face_id - 1).toNat with
    | some f => Except.ok f
    | none => Except.error ⟨500, "An error occurred: list index out of range"⟩

/-- A decoded RGB image: its pixel dimensions plus a pixel payload of
arbitrary type `α` (the numpy array contents, which the lifecycle layer
treats as opaque). -/
structure Img (α : Type) where
  height : Nat
  width : Nat
  data : α
deriving DecidableEq, Repr

/-- Fuel-driven floor-log2 on naturals (`natLog2F fuel n`, intended with
`n ≤ fuel`): structural recursion on the fuel so that concrete instances
reduce inside the kernel. -/
def natLog2F : Nat → Nat → Nat
  | 0, _ => 0
  | fuel + 1, n => if n ≤ 1 then 0 else natLog2F fuel (n / 2) + 1

/-- Floor of the base-2 logarithm of a natural (`0` at `0`). -/
def natLog2 (n : Nat) : Nat := natLog2F n n

/-- Round the fraction `n / d` (`d ≥ 1`) to the nearest integer, ties to
even — the IEEE 754 default rounding, applied to an explicit fraction. -/
def rheNat (n d : Nat) : Nat :=
  let q := n / d
  let r := n % d
  if 2 * r < d then q
  else if d < 2 * r then q + 1
  else if q % 2 = 0 then q else q + 1

/-- Floor of the base-2 logarithm of `a / b` for naturals `a, b ≥ 1`,
computed from `natLog2` with a one-step correction; every comparison stays
on naturals so concrete instances reduce in the kernel. -/
def floorLog2R (a b : Nat) : Int :=
  let k : Int := (natLog2 a : Int) - (natLog2 b : Int)
  if 0 ≤ k then (if 2 ^ k.toNat * b ≤ a then k else k - 1)
  else (if b ≤ 2 ^ (-k).toNat * a then k else k - 1)

/-- The IEEE 754 binary64 double nearest to `a / b` (`a, b ≥ 1`), as a
dyadic pair `(m, e)` of value `m * 2^e` with a 53-bit mantissa, rounded to
nearest with ties to even.  Exponents are unbounded: the embedding has no
overflow or subnormals, so it coincides with binary64 exactly whenever the
true exponent is in the normal range — true of every quantity arising in
the resize path for any decodable image.  This is also the result of
CPython's int/int true division, which rounds the exact quotient once. -/
def divRound (a b : Nat) : Nat × Int :=
  let e : Int := floorLog2R a b - 52
  let nd : Nat × Nat :=
    if 0 ≤ e then (a, b * 2 ^ e.toNat) else (a * 2 ^ (-e).toNat, b)
  (rheNat nd.1 nd.2, e)

/-- CPython's conversion of a nonnegative int to a double: exact below
`2^53`, correctly rounded above. -/
def pyFloat (n : Nat) : Nat × Int := divRound n 1

/-- Correctly rounded binary64 multiplication on dyadic pairs: the exact
product `(x.1 * y.1) * 2^(x.2 + y.2)` re-rounded to a 53-bit mantissa. -/
def fmulD (x y : Nat × Int) : Nat × Int :=
  let r := divRound (x.1 * y.1) 1
  (r.1, r.2 + x.2 + y.2)

/-- Python `int()` on a nonnegative double: truncation toward zero, i.e. the
floor of `m * 2^e`. -/
def truncD (x : Nat × Int) : Nat :=
  if 0 ≤ x.2 then x.1 * 2 ^ x.2.toNat else x.1 / 2 ^ (-x.2).toNat

/-- The rational value of a dyadic pair — the proof-side semantics of a
double. -/
def dval (x : Nat × Int) : ℚ := (x.1 : ℚ) * (2 : ℚ) ^ x.2

/-- `validate_and_resize_image` (main_fixed.py:248-264), with the source's
floating-point arithmetic embedded bit-exactly.  The source computes
`scale = max_dimension / max(height, width)` — CPython int/int true
division, the correctly rounded double of the exact quotient — and then
`int(height * scale)` and `int(width * scale)`: each is one int-to-double
conversion, one correctly rounded double multiplication, and one truncation
toward zero.  `resample` stands for PIL's LANCZOS resize of the pixel
payload, an opaque external call receiving the requested
`(new_width, new_height)`. -/
def validate_and_resize_image {α : Type} (resample : Img α → Nat → Nat → α)
    (image_array : Img α) (max_dimension : Nat) : Img α :=
  let height := image_array.height
  let width := image_array.width
  if max height width > max_dimension then
    let scale := divRound max_dimension (max height width)
    let new_height := truncD (fmulD (pyFloat height) scale)
    let new_width := truncD (fmulD (pyFloat width) scale)
    ⟨new_height, new_width, resample image_array new_width new_height⟩
  else
    image_array

/-- C1: for an ordered list of `N` detected faces and any integer index `i`,
`get_face` returns the `i`-th face from the left when `1 ≤ i ≤ N`, and fails
with a 400 error whose message reports both the count `N` and the requested
index `i` ("The image includes only {N} faces, however, you asked for face
{i}") when `i < 1` or `i > N`. -/
theorem get_face_select_spec (faces : List Face) (i : Int) :
    (1 ≤ i → i ≤ (faces.length : Int) →
      get_face faces i = Except.ok (faces.getD ((i - 1).toNat) default)) ∧
    ((i < 1 ∨ (faces.length : Int) < i) →
      get_face faces i = Except.error ⟨400,
        "The image includes only " ++ toString faces.length ++
        " faces, however, you asked for face " ++ toString i⟩) := by
  constructor
  · intro hlo hhi
    have hcond : ¬ ((faces.length : Int) < i ∨ i < 1) := by omega
    have hlt : (i - 1).toNat < faces.length := by omega
    rw [get_face, if_neg hcond]
    rw [List.getD_eq_getElem?_getD, ← List.get?_eq_getElem?]
    cases hget : faces.get? (i - 1).toNat with
    | none =>
        exact absurd (List.get?_eq_none.mp hget) (by omega)
    | some f => simp
  · intro hcond
    rw [get_face, if_pos (by omega)]

/-- Witness for C1 at the spec's own example: three faces, requested index 5,
yielding the message "The image includes only 3 faces, however, you asked for
face 5". -/
theorem get_face_select_spec_witness :
    get_face [⟨0, 0, 1, 1, 0⟩, ⟨2, 0, 3, 1, 1⟩, ⟨4, 0, 5, 1, 2⟩] 5 =
      Except.error ⟨400,
        "The image includes only 3 faces, however, you asked for face 5"⟩ := by
  have h :=
    (get_face_select_spec [⟨0, 0, 1, 1, 0⟩, ⟨2, 0, 3, 1, 1⟩, ⟨4, 0, 5, 1, 2⟩] 5).2
      (by norm_num)
  simpa using h


/-- C10: an image already within the 1024 px cap is returned unchanged
(no upscaling, no re-resampling), so applying the resize twice equals
applying it once. -/
theorem resize_noop_within_cap {α : Type} (resample : Img α → Nat → Nat → α)
    (img : Img α) (hle : max img.height img.width ≤ 1024) :
    validate_and_resize_image resample img 1024 = img ∧
    validate_and_resize_image resample (validate_and_resize_image resample img 1024) 1024 =
      validate_and_resize_image resample img 1024 := by
  have h1 : validate_and_resize_image resample img 1024 = img := by
    simp only [validate_and_resize_image]
    rw [if_neg (by omega)]
  refine ⟨h1, ?_⟩
  rw [h1]
  exact h1

/-- Witness for C10: a 100 × 200 image is returned unchanged even under a
resampler that would alter the payload, and the resize is idempotent on it. -/
theorem resize_noop_within_cap_witness :
    validate_and_resize_image (fun _ _ _ => (7 : Nat)) ⟨100, 200, 0⟩ 1024 = ⟨100, 200, 0⟩ ∧
    validate_and_resize_image (fun _ _ _ => (7 : Nat))
        (validate_and_resize_image (fun _ _ _ => (7 : Nat)) ⟨100, 200, 0⟩ 1024) 1024 =
      validate_and_resize_image (fun _ _ _ => (7 : Nat)) ⟨100, 200, 0⟩ 1024 :=
  resize_noop_within_cap (fun _ _ _ => (7 : Nat)) ⟨100, 200, 0⟩ (by decide)

/-- An exception raised inside the body of `download_image`
(main_fixed.py:266-305): a `requests.RequestException` (network error or
`raise_for_status`), a FastAPI `HTTPException` (the 413 raised on an
oversized declared content length), or any other exception (e.g. a PIL
decode failure). -/
inductive DlExc where
  | requestExc (msg : String)
  | httpExc (status : Nat) (detail : String)
  | otherExc (msg : String)
deriving DecidableEq, Repr

/-- Python `str(e)` on the exceptions of `DlExc` as used when the outer
handlers interpolate the caught exception into their own detail message. -/
def dlExcStr : DlExc → String
  | DlExc.requestExc m => m
  | DlExc.httpExc s d => toString s ++ ": " ++ d
  | DlExc.otherExc m => m

/-- The value `requests.get(url, timeout=30, headers=...)` returns: by the
time it returns, the **entire** response body has been buffered in memory
(`stream=True` is not used).  `statusError` is true when `raise_for_status()`
would raise; `contentLength` is the optional `content-length` header;
`bodySize` is `len(response.content)`; `decoded` is the image PIL obtains
from the body after RGB conversion (`none` when the body does not decode). -/
structure HttpResp (α : Type) where
  statusError : Bool
  contentLength : Option Nat
  bodySize : Nat
  decoded : Option (Img α)
deriving DecidableEq, Repr

/-- The `try`-body of `download_image`: fetch, `raise_for_status`, the 10 MB
declared-content-length check (Python compares
`int(content_length) / (1024*1024) > 10`, which over a power-of-two divisor
is exact and equivalent to `content_length > 10*1024*1024`), decode, and
`validate_and_resize_image`.  The fetch outcome is passed in: `Except.error`
models `requests.get` itself raising a `RequestException`. -/
def download_image_body {α : Type} (resample : Img α → Nat → Nat → α)
    (outcome : Except String (HttpResp α)) : Except DlExc (Img α) :=
  match outcome with
  | Except.error msg => Except.error (DlExc.requestExc msg)
  | Except.ok r =>
    if r.statusError then
      Except.error (DlExc.requestExc "HTTPError")
    else
      match r.contentLength with
      | some n =>
        if 10 * 1024 * 1024 < n then
          Except.error (DlExc.httpExc 413 "Image too large (max 10MB)")
        else
          match r.decoded with
          | some img => Except.ok (validate_and_resize_image resample img 1024)
          | none => Except.error (DlExc.otherExc "cannot identify image file")
      | none =>
        match r.decoded with
        | some img => Except.ok (validate_and_resize_image resample img 1024)
        | none => Except.error (DlExc.otherExc "cannot identify image file")

/-- `download_image` (main_fixed.py:266-305) with its two `except` clauses:
`requests.RequestException` becomes a 400, and **every other** exception —
including the `HTTPException(413)` raised by the size check, since no
`except HTTPException: raise` clause exists here — becomes a 500 whose detail
wraps `str(e)`.  The second component is the number of response-body bytes
downloaded, which is the full body as soon as `requests.get` returns. -/
def download_image {α : Type} (resample : Img α → Nat → Nat → α)
    (url : String) (outcome : Except String (HttpResp α)) :
    Except ApiError (Img α) × Nat :=
  let bytesDownloaded :=
    match outcome with
    | Except.error _ => 0
    | Except.ok r => r.bodySize
  match download_image_body resample outcome with
  | Except.ok img => (Except.ok img, bytesDownloaded)
  | Except.error (DlExc.requestExc m) =>
    (Except.error ⟨400, "Failed to download image from " ++ url ++ ": " ++ m⟩,
      bytesDownloaded)
  | Except.error e =>
    (Except.error ⟨500, "Error processing image from " ++ url ++ ": " ++ dlExcStr e⟩,
      bytesDownloaded)

/-- C5 (as stated) is false on the code: for a response whose declared
content length is 11 MB, the fetch fails with a transport status of **500**
(the 413 `HTTPException` is swallowed by the blanket `except Exception`
clause, so no 4xx-equivalent is reported), and the full 11 MB body has
already been downloaded (`requests.get` buffers the body before the header
is inspected). -/
theorem download_oversize_counterexample :
    download_image (fun _ _ _ => (0 : Nat)) "http://example.com/big.png"
      (Except.ok ⟨false, some (11 * 1024 * 1024), 11 * 1024 * 1024, some ⟨100, 100, 0⟩⟩) =
    (Except.error ⟨500, "Error processing image from http://example.com/big.png: 413: Image too large (max 10MB)"⟩,
      11 * 1024 * 1024) := by
  rfl

/-- C5 amended: whenever the declared content length exceeds the 10 MB cap
(and `raise_for_status` does not fire first), `download_image` fails with a
message reporting the image as too large, but the failure is reported as a
**500** internal error (the originally raised 413 appears only inside the
message text), and the full response body has already been downloaded. -/
theorem download_oversize_spec {α : Type} (resample : Img α → Nat → Nat → α)
    (url : String) (r : HttpResp α) (hok : r.statusError = false)
    (n : Nat) (hn : r.contentLength = some n) (hbig : 10 * 1024 * 1024 < n) :
    download_image resample url (Except.ok r) =
      (Except.error ⟨500, "Error processing image from " ++ url ++ ": " ++
        "413: Image too large (max 10MB)"⟩, r.bodySize) := by
  rw [download_image, download_image_body]
  simp only [hok, hn, Bool.false_eq_true, if_false, if_pos hbig]
  rfl

/-- Witness for C5 (amended) at a concrete 11 MB response. -/
theorem download_oversize_spec_witness :
    download_image (fun _ _ _ => (0 : Nat)) "http://example.com/a.png"
      (Except.ok ⟨false, some 11534336, 11534336, some ⟨64, 64, 0⟩⟩) =
      (Except.error ⟨500, "Error processing image from http://example.com/a.png: 413: Image too large (max 10MB)"⟩,
        11534336) := by
  have h := download_oversize_spec (fun _ _ _ => (0 : Nat)) "http://example.com/a.png"
    (⟨false, some 11534336, 11534336, some ⟨64, 64, 0⟩⟩ : HttpResp Nat)
    rfl 11534336 rfl (by norm_num)
  exact h

/-- A file at a probed model path: its size in bytes and whether
`onnxruntime.InferenceSession` can parse it.  (A zero-byte file can never be
parsed; models of interest therefore pair `size = 0` with `parsesOk = false`.) -/
structure ModelFile where
  size : Nat
  parsesOk : Bool
deriving DecidableEq, Repr

/-- The filesystem restricted to the candidate model paths: what file, if
any, each path currently holds. -/
abbrev FS := String → Option ModelFile

/-- `validate_onnx_model` (main_fixed.py:46-64).  Returns the verdict paired
with whether a structural load (`ort.InferenceSession`) was attempted: the
source reads `os.path.getsize` **only to log it** and then always attempts
the `InferenceSession` constructor — there is no size-based short-circuit. -/
def validate_onnx_model (fs : FS) (model_path : String) : Bool × Bool :=
  match fs model_path with
  | none => (false, false)
  | some f => (f.parsesOk, true)

/-- `fix_corrupted_model` (main_fixed.py:66-108): best-effort backup copy to
`model_path ++ ".backup"`, removal of the file at `model_path`, then removal
of every `.onnx` file found in the known cache directories (passed in as
`cacheFiles`, the result of the `os.listdir` filter).  Returns the updated
filesystem and `True` (per-file failures are caught and only logged). -/
def fix_corrupted_model (fs : FS) (model_path : String)
    (cacheFiles : List String) : FS × Bool :=
  let afterBackup : FS := fun q =>
    if q = model_path ++ ".backup" then fs model_path else fs q
  let afterRemove : FS := fun q =>
    if q = model_path then none else afterBackup q
  let afterCache : FS := fun q =>
    if q ∈ cacheFiles then none else afterRemove q
  (afterCache, true)

/-- The `possible_paths` probe of `load_swapper_model_with_recovery`
(main_fixed.py:119-131): the first existing candidate path, `none` when no
candidate exists. -/
def locate_model (fs : FS) (possible_paths : List String) : Option String :=
  possible_paths.find? (fun p => (fs p).isSome)

/-- C6 (as stated) is false on the code: for a zero-byte model file at the
sole probed location, `validate_onnx_model` does attempt the structural
load — its parse-attempted flag is `true` — instead of short-circuiting on
the size.  (The verdict is still Invalid, and repair then removes the file.) -/
theorem zero_byte_validate_counterexample :
    validate_onnx_model
      (fun q => if q = "inswapper_128.onnx" then some ⟨0, false⟩ else none)
      "inswapper_128.onnx" = (false, true) := by
  rfl

/-- C6 amended: for a zero-byte model file at the sole probed location,
`validate` returns Invalid — but only after attempting the structural load
(there is no cheap size short-circuit) — `repair` removes the file and
returns Repaired, and a subsequent `locate` over that sole location returns
NotFound. -/
theorem zero_byte_model_repair (fs : FS) (path : String)
    (cacheFiles : List String) (hfile : fs path = some ⟨0, false⟩) :
    validate_onnx_model fs path = (false, true) ∧
    (fix_corrupted_model fs path cacheFiles).2 = true ∧
    locate_model (fix_corrupted_model fs path cacheFiles).1 [path] = none := by
  refine ⟨?_, rfl, ?_⟩
  · rw [validate_onnx_model, hfile]
  · have hgone : (fix_corrupted_model fs path cacheFiles).1 path = none := by
      rw [fix_corrupted_model]
      by_cases hmem : path ∈ cacheFiles
      · simp [hmem]
      · simp [hmem]
    rw [locate_model]
    simp [List.find?, hgone]

/-- Witness for C6 (amended) at a concrete one-path filesystem holding a
zero-byte `inswapper_128.onnx`. -/
theorem zero_byte_model_repair_witness :
    validate_onnx_model
      (fun q => if q = "inswapper_128.fp16.onnx" then some ⟨0, false⟩ else none)
      "inswapper_128.fp16.onnx" = (false, true) ∧
    (fix_corrupted_model
      (fun q => if q = "inswapper_128.fp16.onnx" then some ⟨0, false⟩ else none)
      "inswapper_128.fp16.onnx" []).2 = true ∧
    locate_model (fix_corrupted_model
      (fun q => if q = "inswapper_128.fp16.onnx" then some ⟨0, false⟩ else none)
      "inswapper_128.fp16.onnx" []).1 ["inswapper_128.fp16.onnx"] = none :=
  zero_byte_model_repair
    (fun q => if q = "inswapper_128.fp16.onnx" then some ⟨0, false⟩ else none)
    "inswapper_128.fp16.onnx" [] (by simp)

/-- The retry loop of `load_swapper_model_with_recovery`
(main_fixed.py:114-178): `for attempt in range(max_retries)`.
`attemptOutcome k` abstracts the body of iteration `k` — locate, validate,
possible repair, then the actual `model_zoo.get_model` load — returning
`some m` exactly when that iteration would `return` a model (a failing
iteration runs `fix_corrupted_model` and continues).  The result is paired
with the number of iterations executed. -/
def loadAttemptLoop {μ : Type} (attemptOutcome : Nat → Option μ) :
    Nat → Nat → Option μ × Nat
  | _, 0 => (none, 0)
  | k, r + 1 =>
    match attemptOutcome k with
    | some m => (some m, 1)
    | none =>
      let rest := loadAttemptLoop attemptOutcome (k + 1) r
      (rest.1, rest.2 + 1)

/-- `load_swapper_model_with_recovery` (main_fixed.py:110-180): runs the
retry loop from attempt 0; `none` models the final
`raise Exception("Failed to load swapper model after ... attempts")`. -/
def load_swapper_model_with_recovery {μ : Type}
    (attemptOutcome : Nat → Option μ) (max_retries : Nat) : Option μ × Nat :=
  loadAttemptLoop attemptOutcome 0 max_retries

/-- The `for model_path in model_paths` loop of `get_cached_models`
(main_fixed.py:198-206): each variant gets
`load_swapper_model_with_recovery` with the default `max_retries = 3`; an
exception from it is caught and the loop continues with the next variant. -/
def tryVariantList {μ : Type} (attemptOutcome : String → Nat → Option μ) :
    List String → Option μ
  | [] => none
  | v :: rest =>
    match (load_swapper_model_with_recovery (attemptOutcome v) 3).1 with
    | some m => some m
    | none => tryVariantList attemptOutcome rest

/-- One un-memoized run of `get_cached_models` (main_fixed.py:182-217):
FaceAnalysis first (its failure propagates), then the variant list
`['inswapper_128.fp16.onnx', 'inswapper_128.onnx']`; if no variant loads,
`raise Exception("Failed to load any swapper model variant")`. -/
def get_cached_models_run {φ μ : Type} (faceAnalysis : Option φ)
    (attemptOutcome : String → Nat → Option μ) : Except String (φ × μ) :=
  match faceAnalysis with
  | none => Except.error "Model loading failed"
  | some fa =>
    match tryVariantList attemptOutcome
        ["inswapper_128.fp16.onnx", "inswapper_128.onnx"] with
    | some m => Except.ok (fa, m)
    | none => Except.error "Failed to load any swapper model variant"

/-- The retry loop never runs more iterations than `max_retries`. -/
theorem loadAttemptLoop_attempts_le {μ : Type} (f : Nat → Option μ) :
    ∀ (r k : Nat), (loadAttemptLoop f k r).2 ≤ r := by
  intro r
  induction r with
  | zero => intro k; simp [loadAttemptLoop]
  | succ n ih =>
    intro k
    rw [loadAttemptLoop]
    cases hf : f k with
    | some m => simp
    | none => simpa using ih (k + 1)

/-- The retry loop exhausts (returns `none`) exactly when every attempt in
its window fails. -/
theorem loadAttemptLoop_none_iff {μ : Type} (f : Nat → Option μ) :
    ∀ (r k : Nat),
      (loadAttemptLoop f k r).1 = none ↔ (∀ j, j < r → f (k + j) = none) := by
  intro r
  induction r with
  | zero => intro k; simp [loadAttemptLoop]
  | succ n ih =>
    intro k
    rw [loadAttemptLoop]
    cases hf : f k with
    | some m =>
      simp only []
      constructor
      · intro hcontra; exact absurd hcontra (by simp)
      · intro hall
        have h0 := hall 0 (Nat.succ_pos n)
        rw [Nat.add_zero] at h0
        rw [hf] at h0
        exact absurd h0 (by simp)
    | none =>
      simp only []
      rw [ih (k + 1)]
      constructor
      · intro hall j hj
        cases j with
        | zero => simpa using hf
        | succ jj =>
          have := hall jj (by omega)
          simpa [Nat.add_assoc, Nat.add_comm 1 jj] using this
      · intro hall j hj
        have := hall (j + 1) (by omega)
        simpa [Nat.add_assoc, Nat.add_comm 1 j] using this

/-- Exhausting the two-variant list is equivalent to every attempt of both
variants failing. -/
theorem tryVariantList_none_iff {μ : Type} (g : String → Nat → Option μ) :
    tryVariantList g ["inswapper_128.fp16.onnx", "inswapper_128.onnx"] = none ↔
      ((∀ k, k < 3 → g "inswapper_128.fp16.onnx" k = none) ∧
       (∀ k, k < 3 → g "inswapper_128.onnx" k = none)) := by
  have e1 := loadAttemptLoop_none_iff (g "inswapper_128.fp16.onnx") 3 0
  have e2 := loadAttemptLoop_none_iff (g "inswapper_128.onnx") 3 0
  simp only [Nat.zero_add] at e1 e2
  constructor
  · intro hnone
    rw [tryVariantList, load_swapper_model_with_recovery] at hnone
    cases h1 : (loadAttemptLoop (g "inswapper_128.fp16.onnx") 0 3).1 with
    | some m1 => rw [h1] at hnone; exact absurd hnone (by simp)
    | none =>
      rw [h1] at hnone
      simp only [] at hnone
      rw [tryVariantList, load_swapper_model_with_recovery] at hnone
      cases h2 : (loadAttemptLoop (g "inswapper_128.onnx") 0 3).1 with
      | some m2 => rw [h2] at hnone; exact absurd hnone (by simp)
      | none => exact ⟨e1.mp h1, e2.mp h2⟩
  · intro hall
    have h1 : (loadAttemptLoop (g "inswapper_128.fp16.onnx") 0 3).1 = none :=
      e1.mpr hall.1
    have h2 : (loadAttemptLoop (g "inswapper_128.onnx") 0 3).1 = none :=
      e2.mpr hall.2
    rw [tryVariantList, load_swapper_model_with_recovery, h1]
    simp only []
    rw [tryVariantList, load_swapper_model_with_recovery, h2]
    simp [tryVariantList]

/-- C2: with variant list [fp16, fp32], if every load attempt for the fp16
variant fails and the fp32 variant loads on its first attempt, engine
initialization succeeds with the fp32 model, the fp16 variant consumed at
most `max_retries = 3` attempts before the fallback, and (for any attempt
oracle) initialization returns the fatal
"Failed to load any swapper model variant" error exactly when both variants
exhaust all three of their attempts. -/
theorem getBundle_variant_fallback {φ μ : Type} (fa : φ)
    (attemptOutcome : String → Nat → Option μ) (m : μ)
    (hA : ∀ k, attemptOutcome "inswapper_128.fp16.onnx" k = none)
    (hB : attemptOutcome "inswapper_128.onnx" 0 = some m) :
    get_cached_models_run (some fa) attemptOutcome = Except.ok (fa, m) ∧
    (load_swapper_model_with_recovery
      (attemptOutcome "inswapper_128.fp16.onnx") 3).2 ≤ 3 ∧
    (∀ (g : String → Nat → Option μ) (fa2 : φ),
      get_cached_models_run (some fa2) g =
          Except.error "Failed to load any swapper model variant" ↔
        ((∀ k, k < 3 → g "inswapper_128.fp16.onnx" k = none) ∧
         (∀ k, k < 3 → g "inswapper_128.onnx" k = none))) := by
  refine ⟨?_, loadAttemptLoop_attempts_le _ 3 0, ?_⟩
  · simp [get_cached_models_run, tryVariantList, load_swapper_model_with_recovery,
      loadAttemptLoop, hA, hB]
  · intro g fa2
    constructor
    · intro herr
      rw [get_cached_models_run] at herr
      cases htv : tryVariantList g ["inswapper_128.fp16.onnx", "inswapper_128.onnx"] with
      | some mh => rw [htv] at herr; exact absurd herr (by simp)
      | none => exact (tryVariantList_none_iff g).mp htv
    · intro hall
      rw [get_cached_models_run, (tryVariantList_none_iff g).mpr hall]

/-- Witness for C2: an oracle where the fp16 variant always fails and the
fp32 variant succeeds immediately. -/
theorem getBundle_variant_fallback_witness :
    get_cached_models_run (some 0)
      (fun v _ => if v = "inswapper_128.onnx" then some 7 else none) =
        Except.ok ((0 : Nat), (7 : Nat)) ∧
    (load_swapper_model_with_recovery
      ((fun (v : String) (_ : Nat) => if v = "inswapper_128.onnx" then some (7 : Nat) else none)
        "inswapper_128.fp16.onnx") 3).2 ≤ 3 ∧
    (∀ (g : String → Nat → Option Nat) (fa2 : Nat),
      get_cached_models_run (some fa2) g =
          Except.error "Failed to load any swapper model variant" ↔
        ((∀ k, k < 3 → g "inswapper_128.fp16.onnx" k = none) ∧
         (∀ k, k < 3 → g "inswapper_128.onnx" k = none))) :=
  getBundle_variant_fallback 0
    (fun v _ => if v = "inswapper_128.onnx" then some 7 else none) 7
    (fun _ => rfl) rfl

/-- One call through the `@lru_cache(maxsize=1)` wrapper on
`get_cached_models` (main_fixed.py:182-183).  `functools.lru_cache` stores a
result only when the wrapped call **returns**; a raised exception propagates
and nothing is cached.  `st` is the cache cell before the call, `run` the
outcome the underlying initialization would produce if executed.  Returns
(what the caller sees, the cache cell afterwards, whether the underlying
initialization actually ran). -/
def lruCall {ε β : Type} (st : Option β) (run : Except ε β) :
    Except ε β × Option β × Bool :=
  match st with
  | some b => (Except.ok b, some b, false)
  | none =>
    match run with
    | Except.ok b => (Except.ok b, some b, true)
    | Except.error e => (Except.error e, none, true)

/-- A sequence of calls through the cache, threading the cache cell; each
list element is the outcome the underlying initialization would produce on
that call.  Returns the per-call (observed result, init-ran flag) list and
the final cache cell. -/
def lruCalls {ε β : Type} (runs : List (Except ε β)) (st : Option β) :
    List (Except ε β × Bool) × Option β :=
  match runs with
  | [] => ([], st)
  | r :: rest =>
    let step := lruCall st r
    let next := lruCalls rest step.2.1
    ((step.1, step.2.2) :: next.1, next.2)

/-- C3: the engine cache memoizes only success, never failure.  Once the
cache holds a bundle `b`, every later call — whatever its underlying
initialization would do — observes `b` without re-initializing, and the cell
still holds `b`.  A first successful initialization stores its bundle.  A
failed initialization is observed as that failure, leaves the cell empty,
and the very next call re-runs the full initialization. -/
theorem engine_cache_memoizes_success_only {ε β : Type} :
    (∀ (runs : List (Except ε β)) (b : β),
      lruCalls runs (some b) =
        (runs.map (fun _ => (Except.ok b, false)), some b)) ∧
    (∀ (b : β),
      lruCall (none : Option β) (Except.ok b : Except ε β) =
        (Except.ok b, some b, true)) ∧
    (∀ (e : ε),
      lruCall (none : Option β) (Except.error e : Except ε β) =
        (Except.error e, none, true)) ∧
    (∀ (e : ε) (run2 : Except ε β),
      (lruCall ((lruCall (none : Option β) (Except.error e)).2.1) run2).2.2 = true) := by
  refine ⟨?_, ?_, ?_, ?_⟩
  · intro runs b
    induction runs with
    | nil => rfl
    | cons r rest ih => simp [lruCalls, lruCall, ih]
  · intro b; rfl
  · intro e; rfl
  · intro e run2
    cases run2 <;> rfl

/-- The RunPod serverless output shape (main_fixed.py:343-346):
`image_base64` is `Optional[str] = None`, so it is absent unless set. -/
structure RunPodOutput where
  success : Bool
  image_base64 : Option String
  message : String
deriving DecidableEq, Repr

/-- A business failure escaping `perform_face_swap_logic`: either a FastAPI
`HTTPException` (bad input, face index out of range, engines not
initialized) or any other exception. -/
inductive PyErr where
  | httpExc (status : Nat) (detail : String)
  | exc (msg : String)
deriving DecidableEq, Repr

/-- The message the `/runsync` handler reports for each failure kind:
`e.detail` for an `HTTPException`, `"Face swap failed: " ++ str(e)`
otherwise. -/
def pyErrMessage : PyErr → String
  | PyErr.httpExc _ d => d
  | PyErr.exc m => "Face swap failed: " ++ m

/-- `runsync_face_swap` (main_fixed.py:515-563): wraps the outcome of
`perform_face_swap_logic` in the RunPod envelope.  Both `except` clauses
**return** a `RunPodResponse` instead of re-raising, so the transport status
(first component) is 200 on every path. -/
def runsync_face_swap (logic : Except PyErr String) : Nat × RunPodOutput :=
  match logic with
  | Except.ok img => (200, ⟨true, some img, "Face swap completed successfully"⟩)
  | Except.error (PyErr.httpExc _ d) => (200, ⟨false, none, d⟩)
  | Except.error (PyErr.exc m) => (200, ⟨false, none, "Face swap failed: " ++ m⟩)

/-- C4: every business failure of the `/runsync` endpoint — an
`HTTPException` of any status (bad input, out-of-range face index, engines
not initialized) or an unexpected exception — yields a transport-200
response whose output has `success = false`, carries the failure's
human-readable message, and has no `image_base64` payload. -/
theorem runsync_business_failure_envelope (err : PyErr) :
    (runsync_face_swap (Except.error err)).1 = 200 ∧
    (runsync_face_swap (Except.error err)).2.success = false ∧
    (runsync_face_swap (Except.error err)).2.image_base64 = none ∧
    (runsync_face_swap (Except.error err)).2.message = pyErrMessage err := by
  cases err with
  | httpExc s d => exact ⟨rfl, rfl, rfl, rfl⟩
  | exc m => exact ⟨rfl, rfl, rfl, rfl⟩

/-- The module-level mutable state of main_fixed.py: the two engine globals
(`face_analysis_app`, `swapper_model`, main_fixed.py:34-35) and the
`lru_cache` cell of `get_cached_models`. -/
structure AppState (φ μ : Type) where
  face_analysis_app : Option φ
  swapper_model : Option μ
  modelsCache : Option (φ × μ)
deriving DecidableEq, Repr

/-- The JSON body returned by the `/fix-model` endpoint. -/
structure FixResponse where
  success : Bool
  message : String
deriving DecidableEq, Repr

/-- `fix_model_endpoint` (main_fixed.py:409-429): runs
`fix_corrupted_model('inswapper_128.onnx')`; on success clears the
`get_cached_models` cache and sets both engine globals to `None` — without
loading anything — and answers with the restart message; on failure leaves
the state untouched. -/
def fix_model_endpoint {φ μ : Type} (fs : FS) (cacheFiles : List String)
    (st : AppState φ μ) : FS × AppState φ μ × FixResponse :=
  let fixed := fix_corrupted_model fs "inswapper_128.onnx" cacheFiles
  if fixed.2 then
    (fixed.1, ⟨none, none, none⟩,
      ⟨true, "Model fix completed. Restart the application to reload models."⟩)
  else
    (fixed.1, st, ⟨false, "Model fix failed"⟩)

/-- `perform_face_swap_logic` (main_fixed.py:431-488): guard on the engine
globals, download both images, detect and sort faces in both, select the two
requested faces, swap, encode.  The engines are opaque calls passed in
(`detect`, `swapper`); `fetchImage` is the outcome of `download_image` per
URL.  The second and third components count the face-analysis calls and the
swapper calls made, recording exactly when each engine is invoked. -/
def perform_face_swap_logic {φ μ α : Type} (st : AppState φ μ)
    (detect : φ → Img α → List Face)
    (swapper : μ → Img α → Face → Face → Img α)
    (encode : Img α → String)
    (fetchImage : String → Except ApiError (Img α))
    (source_url target_url : String) (source_index target_index : Int) :
    Except ApiError String × Nat × Nat :=
  match st.face_analysis_app, st.swapper_model with
  | some fa, some sw =>
    match fetchImage source_url with
    | Except.error e => (Except.error e, 0, 0)
    | Except.ok source_image =>
      match fetchImage target_url with
      | Except.error e => (Except.error e, 0, 0)
      | Except.ok target_image =>
        let source_faces := sort_faces (detect fa source_image)
        let target_faces := sort_faces (detect fa target_image)
        match get_face source_faces source_index with
        | Except.error e => (Except.error e, 2, 0)
        | Except.ok source_face =>
          match get_face target_faces target_index with
          | Except.error e => (Except.error e, 2, 0)
          | Except.ok target_face =>
            (Except.ok (encode (swapper sw target_image target_face source_face)),
              2, 1)
  | _, _ => (Except.error ⟨500, "Models not initialized"⟩, 0, 0)

/-- C7 (as stated) is false on the code: after a successful `/fix-model` on a
fully initialized application, the next swap request does **not**
re-initialize the engines lazily — it fails with the 500
"Models not initialized" error (and makes no engine call), exactly as the
endpoint's own response message warns ("Restart the application to reload
models."). -/
theorem fix_model_no_lazy_reinit_counterexample :
    (fix_model_endpoint (fun _ => none) []
      (⟨some 0, some 0, some (0, 0)⟩ : AppState Nat Nat)).2.2.message =
      "Model fix completed. Restart the application to reload models." ∧
    perform_face_swap_logic
      (fix_model_endpoint (fun _ => none) []
        (⟨some 0, some 0, some (0, 0)⟩ : AppState Nat Nat)).2.1
      (fun _ _ => [⟨0, 0, 1, 1, 0⟩]) (fun _ i _ _ => i) (fun _ => "out")
      (fun _ => Except.ok (⟨8, 8, 0⟩ : Img Nat)) "s" "t" 1 1 =
      (Except.error ⟨500, "Models not initialized"⟩, 0, 0) :=
  ⟨rfl, rfl⟩

/-- C7 amended: `/fix-model` triggers repair on the known swap-model path
(`inswapper_128.onnx`, afterwards absent from the filesystem), invalidates
the cached bundle and engine globals without re-initializing anything, and
answers with the restart message; every subsequent swap request then fails
with the 500 "Models not initialized" error — making no engine call — until
the application is restarted. -/
theorem fix_model_invalidate_spec {φ μ α : Type} (fs : FS)
    (cacheFiles : List String) (st : AppState φ μ) :
    (fix_model_endpoint fs cacheFiles st).2.1 =
      (⟨none, none, none⟩ : AppState φ μ) ∧
    (fix_model_endpoint fs cacheFiles st).2.2 =
      ⟨true, "Model fix completed. Restart the application to reload models."⟩ ∧
    (fix_model_endpoint fs cacheFiles st).1 "inswapper_128.onnx" = none ∧
    (∀ (detect : φ → Img α → List Face)
       (swapper : μ → Img α → Face → Face → Img α)
       (encode : Img α → String)
       (fetchImage : String → Except ApiError (Img α))
       (surl turl : String) (si ti : Int),
      perform_face_swap_logic (fix_model_endpoint fs cacheFiles st).2.1
          detect swapper encode fetchImage surl turl si ti =
        (Except.error ⟨500, "Models not initialized"⟩, 0, 0)) := by
  refine ⟨rfl, rfl, ?_, ?_⟩
  · rw [fix_model_endpoint, fix_corrupted_model]
    by_cases hmem : "inswapper_128.onnx" ∈ cacheFiles
    · simp [hmem]
    · simp [hmem]
  · intro detect swapper encode fetchImage surl turl si ti
    rfl

/-- C9 (as stated) is false on the code: a swap request with
`source_index = 0` does fail with a client 400 error, but only **after** the
face-detection engine has been invoked on both images (detection count 2 in
the trace), contradicting "neither engine is invoked".  Only the swapper
engine is never reached. -/
theorem swap_index_zero_engine_called_counterexample :
    perform_face_swap_logic (⟨some 1, some 1, none⟩ : AppState Nat Nat)
      (fun _ _ => [⟨0, 0, 2, 2, 0⟩, ⟨3, 0, 5, 2, 1⟩, ⟨6, 0, 8, 2, 2⟩])
      (fun _ i _ _ => i) (fun _ => "out")
      (fun _ => Except.ok (⟨16, 16, 0⟩ : Img Nat)) "src" "tgt" 0 1 =
      (Except.error ⟨400,
        "The image includes only 3 faces, however, you asked for face 0"⟩,
        2, 0) := by
  rfl

/-- C9 amended: for every swap request whose source index is below 1 (with
engines initialized and both downloads succeeding), the pipeline fails with
the client 400 out-of-range error at the selection stage; the swapper engine
is never invoked, but the face-detection engine has by then already run on
both images (detection count 2). -/
theorem swap_low_index_client_error {φ μ α : Type} (fa : φ) (sw : μ)
    (cache : Option (φ × μ))
    (detect : φ → Img α → List Face)
    (swapper : μ → Img α → Face → Face → Img α)
    (encode : Img α → String)
    (fetchImage : String → Except ApiError (Img α))
    (srcImg tgtImg : Img α) (surl turl : String) (si ti : Int)
    (hs : fetchImage surl = Except.ok srcImg)
    (ht : fetchImage turl = Except.ok tgtImg)
    (hsi : si < 1) :
    perform_face_swap_logic (⟨some fa, some sw, cache⟩ : AppState φ μ)
        detect swapper encode fetchImage surl turl si ti =
      (Except.error ⟨400, "The image includes only " ++
        toString (sort_faces (detect fa srcImg)).length ++
        " faces, however, you asked for face " ++ toString si⟩, 2, 0) := by
  have hgf : get_face (sort_faces (detect fa srcImg)) si =
      Except.error ⟨400, "The image includes only " ++
        toString (sort_faces (detect fa srcImg)).length ++
        " faces, however, you asked for face " ++ toString si⟩ := by
    rw [get_face, if_pos (Or.inr hsi)]
  simp only [perform_face_swap_logic, hs, ht, hgf]

/-- Witness for C9 (amended) at a concrete one-face image and
`source_index = 0`. -/
theorem swap_low_index_client_error_witness :
    perform_face_swap_logic (⟨some 0, some 0, none⟩ : AppState Nat Nat)
      (fun _ _ => [⟨0, 0, 1, 1, 0⟩]) (fun _ i _ _ => i) (fun _ => "out")
      (fun _ => Except.ok (⟨8, 8, 0⟩ : Img Nat)) "s" "t" 0 1 =
      (Except.error ⟨400,
        "The image includes only 1 faces, however, you asked for face 0"⟩,
        2, 0) := by
  have h := swap_low_index_client_error 0 0 none
    (fun _ _ => [⟨0, 0, 1, 1, 0⟩]) (fun _ i _ _ => i) (fun _ => "out")
    (fun _ => Except.ok (⟨8, 8, 0⟩ : Img Nat)) ⟨8, 8, 0⟩ ⟨8, 8, 0⟩
    "s" "t" 0 1 rfl rfl (by norm_num)
  exact h

/-- Fuel-indexed correctness of `natLog2F`: with enough fuel it brackets its
argument between consecutive powers of two. -/
theorem natLog2F_spec : ∀ (fuel n : Nat), 1 ≤ n → n ≤ fuel →
    2 ^ natLog2F fuel n ≤ n ∧ n < 2 ^ (natLog2F fuel n + 1) := by
  intro fuel
  induction fuel with
  | zero => intro n h1 h2; omega
  | succ f ih =>
    intro n h1 h2
    simp only [natLog2F]
    by_cases hn1 : n ≤ 1
    · have hn : n = 1 := by omega
      subst hn
      simp
    · rw [if_neg hn1]
      obtain ⟨l1, l2⟩ := ih (n / 2) (by omega) (by omega)
      rw [pow_succ] at l2
      constructor
      · rw [pow_succ]
        omega
      · rw [pow_succ, pow_succ]
        omega

/-- `natLog2` brackets every positive natural between consecutive powers of
two. -/
theorem natLog2_spec (n : Nat) (h1 : 1 ≤ n) :
    2 ^ natLog2 n ≤ n ∧ n < 2 ^ (natLog2 n + 1) := by
  rw [natLog2]
  exact natLog2F_spec n n h1 le_rfl

/-- Round-half-even on a fraction lands within half a denominator of the
numerator (the multiplied-out form of `|rheNat n d - n/d| ≤ 1/2`). -/
theorem rheNat_bounds (n d : Nat) (hd : 0 < d) :
    (n : ℚ) - (d : ℚ) / 2 ≤ (rheNat n d : ℚ) * d ∧
    (rheNat n d : ℚ) * d ≤ (n : ℚ) + (d : ℚ) / 2 := by
  have hdm := Nat.div_add_mod n d
  have hr := Nat.mod_lt n hd
  have hcast : (d : ℚ) * (n / d : Nat) + (n % d : Nat) = (n : ℚ) := by
    exact_mod_cast hdm
  have hrc : ((n % d : Nat) : ℚ) < (d : ℚ) := by exact_mod_cast hr
  have hr0 : (0 : ℚ) ≤ ((n % d : Nat) : ℚ) := Nat.cast_nonneg _
  simp only [rheNat]
  split_ifs with h1 h2 h3
  · have h1c : 2 * ((n % d : Nat) : ℚ) < (d : ℚ) := by exact_mod_cast h1
    constructor <;> linarith
  · have h2c : (d : ℚ) < 2 * ((n % d : Nat) : ℚ) := by exact_mod_cast h2
    push_cast
    constructor <;> linarith
  · have h3c : 2 * ((n % d : Nat) : ℚ) = (d : ℚ) := by
      have : 2 * (n % d) = d := by omega
      exact_mod_cast this
    constructor <;> linarith
  · have h3c : 2 * ((n % d : Nat) : ℚ) = (d : ℚ) := by
      have : 2 * (n % d) = d := by omega
      exact_mod_cast this
    push_cast
    constructor <;> linarith

/-- Casting helper: an integer power of two over ℚ with a natural exponent
is the cast of the natural power. -/
theorem zpow_natCast_two (t : Nat) : (2 : ℚ) ^ ((t : Int)) = ((2 ^ t : Nat) : ℚ) := by
  rw [zpow_natCast]
  norm_cast

/-- `floorLog2R a b` brackets `a / b` between consecutive integer powers of
two, for `a, b ≥ 1`. -/
theorem floorLog2R_spec (a b : Nat) (ha : 1 ≤ a) (hb : 1 ≤ b) :
    (2 : ℚ) ^ floorLog2R a b ≤ (a : ℚ) / (b : ℚ) ∧
    (a : ℚ) / (b : ℚ) < (2 : ℚ) ^ (floorLog2R a b + 1) := by
  obtain ⟨ha1, ha2⟩ := natLog2_spec a ha
  obtain ⟨hb1, hb2⟩ := natLog2_spec b hb
  have hb0 : (0 : ℚ) < (b : ℚ) := by exact_mod_cast hb
  have ha1q : (2 : ℚ) ^ ((natLog2 a : Nat) : Int) ≤ (a : ℚ) := by
    rw [zpow_natCast_two]; exact_mod_cast ha1
  have ha2q : (a : ℚ) < (2 : ℚ) ^ (((natLog2 a : Nat) : Int) + 1) := by
    have : ((natLog2 a : Nat) : Int) + 1 = (((natLog2 a + 1 : Nat)) : Int) := by push_cast; ring
    rw [this, zpow_natCast_two]; exact_mod_cast ha2
  have hb1q : (2 : ℚ) ^ ((natLog2 b : Nat) : Int) ≤ (b : ℚ) := by
    rw [zpow_natCast_two]; exact_mod_cast hb1
  have hb2q : (b : ℚ) < (2 : ℚ) ^ (((natLog2 b : Nat) : Int) + 1) := by
    have : ((natLog2 b : Nat) : Int) + 1 = (((natLog2 b + 1 : Nat)) : Int) := by push_cast; ring
    rw [this, zpow_natCast_two]; exact_mod_cast hb2
  set A : Int := ((natLog2 a : Nat) : Int) with hA
  set B : Int := ((natLog2 b : Nat) : Int) with hB
  have g1 : (2 : ℚ) ^ (A - B - 1) < (a : ℚ) / (b : ℚ) := by
    rw [lt_div_iff₀ hb0]
    have step : (2 : ℚ) ^ (A - B - 1) * (b : ℚ) < (2 : ℚ) ^ (A - B - 1) * (2 : ℚ) ^ (B + 1) :=
      mul_lt_mul_of_pos_left hb2q (zpow_pos (by norm_num) _)
    have collapse : (2 : ℚ) ^ (A - B - 1) * (2 : ℚ) ^ (B + 1) = (2 : ℚ) ^ A := by
      rw [← zpow_add₀ (two_ne_zero)]
      congr 1
      ring
    rw [collapse] at step
    exact lt_of_lt_of_le step ha1q
  have g2 : (a : ℚ) / (b : ℚ) < (2 : ℚ) ^ (A - B + 1) := by
    rw [div_lt_iff₀ hb0]
    have step : (2 : ℚ) ^ (A - B + 1) * (2 : ℚ) ^ B ≤ (2 : ℚ) ^ (A - B + 1) * (b : ℚ) :=
      mul_le_mul_of_nonneg_left hb1q (le_of_lt (zpow_pos (by norm_num) _))
    have collapse : (2 : ℚ) ^ (A - B + 1) * (2 : ℚ) ^ B = (2 : ℚ) ^ (A + 1) := by
      rw [← zpow_add₀ (two_ne_zero)]
      congr 1
      ring
    rw [collapse] at step
    calc (a : ℚ) < (2 : ℚ) ^ (A + 1) := ha2q
      _ ≤ (2 : ℚ) ^ (A - B + 1) * (b : ℚ) := step
  simp only [floorLog2R]
  rw [← hA, ← hB]
  split_ifs with hk0 hc hc
  · constructor
    · rw [le_div_iff₀ hb0]
      have hcq : ((2 ^ (A - B).toNat * b : Nat) : ℚ) ≤ (a : ℚ) := by exact_mod_cast hc
      have : (2 : ℚ) ^ (A - B) * (b : ℚ) = ((2 ^ (A - B).toNat * b : Nat) : ℚ) := by
        push_cast
        congr 1
        rw [← zpow_natCast]
        congr 1
        omega
      rw [this]
      exact hcq
    · exact g2
  · constructor
    · have he : A - B - 1 = A - B - 1 := rfl
      exact le_of_lt g1
    · have he : A - B - 1 + 1 = A - B := by ring
      rw [he]
      rw [div_lt_iff₀ hb0]
      have hcq : (a : ℚ) < ((2 ^ (A - B).toNat * b : Nat) : ℚ) := by
        exact_mod_cast Nat.lt_of_not_le hc
      have : (2 : ℚ) ^ (A - B) * (b : ℚ) = ((2 ^ (A - B).toNat * b : Nat) : ℚ) := by
        push_cast
        congr 1
        rw [← zpow_natCast]
        congr 1
        omega
      rw [this]
      exact hcq
  · constructor
    · rw [le_div_iff₀ hb0]
      have hcq : (b : ℚ) ≤ ((2 ^ (-(A - B)).toNat * a : Nat) : ℚ) := by exact_mod_cast hc
      have hpow : ((2 ^ (-(A - B)).toNat * a : Nat) : ℚ) = (2 : ℚ) ^ (-(A - B)) * (a : ℚ) := by
        push_cast
        congr 1
        rw [← zpow_natCast]
        congr 1
        omega
      rw [hpow] at hcq
      have step : (2 : ℚ) ^ (A - B) * (b : ℚ) ≤
          (2 : ℚ) ^ (A - B) * ((2 : ℚ) ^ (-(A - B)) * (a : ℚ)) :=
        mul_le_mul_of_nonneg_left hcq (le_of_lt (zpow_pos (by norm_num) _))
      have collapse : (2 : ℚ) ^ (A - B) * ((2 : ℚ) ^ (-(A - B)) * (a : ℚ)) = (a : ℚ) := by
        rw [← mul_assoc, ← zpow_add₀ (two_ne_zero : (2 : ℚ) ≠ 0)]
        norm_num
      rw [collapse] at step
      exact step
    · exact g2
  · constructor
    · exact le_of_lt g1
    · have he : A - B - 1 + 1 = A - B := by ring
      rw [he, div_lt_iff₀ hb0]
      have hcq : ((2 ^ (-(A - B)).toNat * a : Nat) : ℚ) < (b : ℚ) := by
        exact_mod_cast Nat.lt_of_not_le hc
      have hpow : ((2 ^ (-(A - B)).toNat * a : Nat) : ℚ) = (2 : ℚ) ^ (-(A - B)) * (a : ℚ) := by
        push_cast
        congr 1
        rw [← zpow_natCast]
        congr 1
        omega
      rw [hpow] at hcq
      have step : (2 : ℚ) ^ (A - B) * ((2 : ℚ) ^ (-(A - B)) * (a : ℚ)) <
          (2 : ℚ) ^ (A - B) * (b : ℚ) :=
        mul_lt_mul_of_pos_left hcq (zpow_pos (by norm_num) _)
      have collapse : (2 : ℚ) ^ (A - B) * ((2 : ℚ) ^ (-(A - B)) * (a : ℚ)) = (a : ℚ) := by
        rw [← mul_assoc, ← zpow_add₀ (two_ne_zero : (2 : ℚ) ≠ 0)]
        norm_num
      rw [collapse] at step
      exact step

/-- Rounding never goes below the floor of the fraction. -/
theorem rheNat_ge (n d : Nat) : n / d ≤ rheNat n d := by
  simp only [rheNat]
  split_ifs <;> omega

/-- `divRound` is a faithful rounding: its mantissa is positive and its
value is within one part in `2^53` of the exact quotient (the standard
correct-rounding error bound for a 53-bit mantissa). -/
theorem divRound_spec (a b : Nat) (ha : 1 ≤ a) (hb : 1 ≤ b) :
    1 ≤ (divRound a b).1 ∧
    |dval (divRound a b) - (a : ℚ) / (b : ℚ)| ≤
      ((a : ℚ) / (b : ℚ)) * (2 : ℚ) ^ (-53 : Int) := by
  obtain ⟨hlo, hhi⟩ := floorLog2R_spec a b ha hb
  have hbq : (0 : ℚ) < (b : ℚ) := by exact_mod_cast hb
  have haq : (0 : ℚ) < (a : ℚ) := by exact_mod_cast ha
  by_cases hE : 0 ≤ floorLog2R a b - 52
  · set t : Nat := (floorLog2R a b - 52).toNat with ht
    have htE : (t : Int) = floorLog2R a b - 52 := Int.toNat_of_nonneg hE
    have hcomp : divRound a b = (rheNat a (b * 2 ^ t), floorLog2R a b - 52) := by
      simp only [divRound]
      rw [if_pos hE]
    have hd0 : 0 < b * 2 ^ t := by positivity
    obtain ⟨w1, w2⟩ := rheNat_bounds a (b * 2 ^ t) hd0
    push_cast at w1 w2
    have h2t_le : ((2 : ℚ)) ^ ((t : Int)) ≤ (2 : ℚ) ^ (floorLog2R a b) := by
      apply zpow_le_zpow_right₀ (by norm_num)
      omega
    have hle : b * 2 ^ t ≤ a := by
      have h1 : (2 : ℚ) ^ (floorLog2R a b) * (b : ℚ) ≤ (a : ℚ) :=
        (le_div_iff₀ hbq).mp hlo
      have h2 : ((b * 2 ^ t : Nat) : ℚ) ≤ (a : ℚ) := by
        push_cast
        calc (b : ℚ) * (2 : ℚ) ^ t = (2 : ℚ) ^ ((t : Int)) * (b : ℚ) := by
              rw [zpow_natCast]; ring
          _ ≤ (2 : ℚ) ^ (floorLog2R a b) * (b : ℚ) :=
              mul_le_mul_of_nonneg_right h2t_le (le_of_lt hbq)
          _ ≤ (a : ℚ) := h1
      exact_mod_cast h2
    constructor
    · rw [hcomp]
      have hq : 1 ≤ a / (b * 2 ^ t) := (Nat.one_le_div_iff hd0).mpr hle
      have hg := rheNat_ge a (b * 2 ^ t)
      omega
    · rw [hcomp]
      simp only [dval]
      rw [← htE, zpow_natCast]
      have key : ((rheNat a (b * 2 ^ t) : Nat) : ℚ) * (2 : ℚ) ^ t - (a : ℚ) / (b : ℚ) =
          (((rheNat a (b * 2 ^ t) : Nat) : ℚ) * ((b : ℚ) * (2 : ℚ) ^ t) - (a : ℚ)) / (b : ℚ) := by
        field_simp
        ring
      rw [key, abs_div, abs_of_pos hbq]
      have habs : |((rheNat a (b * 2 ^ t) : Nat) : ℚ) * ((b : ℚ) * (2 : ℚ) ^ t) - (a : ℚ)| ≤
          ((b : ℚ) * (2 : ℚ) ^ t) / 2 := by
        rw [abs_le]
        constructor <;> linarith
      have hfin : (((b : ℚ) * (2 : ℚ) ^ t) / 2) / (b : ℚ) ≤
          ((a : ℚ) / (b : ℚ)) * (2 : ℚ) ^ (-53 : Int) := by
        have heq : (((b : ℚ) * (2 : ℚ) ^ t) / 2) / (b : ℚ) = (2 : ℚ) ^ t / 2 := by
          field_simp
          ring
        have hE2 : (2 : ℚ) ^ (floorLog2R a b) * (2 : ℚ) ^ (-53 : Int) = (2 : ℚ) ^ t / 2 := by
          rw [← zpow_add₀ (two_ne_zero : (2 : ℚ) ≠ 0)]
          have harith : floorLog2R a b + (-53) = (t : Int) + (-1) := by omega
          rw [harith, zpow_add₀ (two_ne_zero : (2 : ℚ) ≠ 0), zpow_natCast]
          norm_num
          ring
        rw [heq, ← hE2]
        exact mul_le_mul_of_nonneg_right hlo (by positivity)
      calc |((rheNat a (b * 2 ^ t) : Nat) : ℚ) * ((b : ℚ) * (2 : ℚ) ^ t) - (a : ℚ)| / (b : ℚ)
          ≤ (((b : ℚ) * (2 : ℚ) ^ t) / 2) / (b : ℚ) := by gcongr
        _ ≤ ((a : ℚ) / (b : ℚ)) * (2 : ℚ) ^ (-53 : Int) := hfin
  · set t : Nat := (-(floorLog2R a b - 52)).toNat with ht
    have htE : (t : Int) = 52 - floorLog2R a b := by
      rw [ht]
      omega
    have hcomp : divRound a b = (rheNat (a * 2 ^ t) b, floorLog2R a b - 52) := by
      simp only [divRound]
      rw [if_neg hE]
    have hb0' : 0 < b := hb
    obtain ⟨w1, w2⟩ := rheNat_bounds (a * 2 ^ t) b hb0'
    push_cast at w1 w2
    have h1 : (2 : ℚ) ^ (floorLog2R a b) * (b : ℚ) ≤ (a : ℚ) := (le_div_iff₀ hbq).mp hlo
    have hcollapse : (2 : ℚ) ^ ((t : Int)) * (2 : ℚ) ^ (floorLog2R a b) = (2 : ℚ) ^ (52 : Int) := by
      rw [← zpow_add₀ (two_ne_zero : (2 : ℚ) ≠ 0)]
      congr 1
      omega
    have hle : b ≤ a * 2 ^ t := by
      have h2 : ((b : ℚ)) ≤ (a : ℚ) * (2 : ℚ) ^ t := by
        have s1 : (b : ℚ) ≤ (2 : ℚ) ^ (52 : Int) * (b : ℚ) := by
          apply le_mul_of_one_le_left (le_of_lt hbq)
          norm_num
        have s2 : (2 : ℚ) ^ (52 : Int) * (b : ℚ) =
            (2 : ℚ) ^ ((t : Int)) * ((2 : ℚ) ^ (floorLog2R a b) * (b : ℚ)) := by
          rw [← mul_assoc, hcollapse]
        have s3 : (2 : ℚ) ^ ((t : Int)) * ((2 : ℚ) ^ (floorLog2R a b) * (b : ℚ)) ≤
            (2 : ℚ) ^ ((t : Int)) * (a : ℚ) :=
          mul_le_mul_of_nonneg_left h1 (by positivity)
        calc (b : ℚ) ≤ (2 : ℚ) ^ (52 : Int) * (b : ℚ) := s1
          _ = (2 : ℚ) ^ ((t : Int)) * ((2 : ℚ) ^ (floorLog2R a b) * (b : ℚ)) := s2
          _ ≤ (2 : ℚ) ^ ((t : Int)) * (a : ℚ) := s3
          _ = (a : ℚ) * (2 : ℚ) ^ t := by rw [zpow_natCast]; ring
      exact_mod_cast h2
    constructor
    · rw [hcomp]
      have hq : 1 ≤ (a * 2 ^ t) / b := (Nat.one_le_div_iff hb0').mpr hle
      have hg := rheNat_ge (a * 2 ^ t) b
      omega
    · rw [hcomp]
      simp only [dval]
      have hzp : (2 : ℚ) ^ (floorLog2R a b - 52) = ((2 : ℚ) ^ t)⁻¹ := by
        rw [show floorLog2R a b - 52 = -((t : Int)) by omega, zpow_neg, zpow_natCast]
      rw [hzp]
      have h2t0 : (0 : ℚ) < (2 : ℚ) ^ t := by positivity
      have key : ((rheNat (a * 2 ^ t) b : Nat) : ℚ) * ((2 : ℚ) ^ t)⁻¹ - (a : ℚ) / (b : ℚ) =
          (((rheNat (a * 2 ^ t) b : Nat) : ℚ) * (b : ℚ) - (a : ℚ) * (2 : ℚ) ^ t) /
            ((b : ℚ) * (2 : ℚ) ^ t) := by
        field_simp
        ring
      rw [key, abs_div, abs_of_pos (by positivity : (0 : ℚ) < (b : ℚ) * (2 : ℚ) ^ t)]
      have habs : |((rheNat (a * 2 ^ t) b : Nat) : ℚ) * (b : ℚ) - (a : ℚ) * (2 : ℚ) ^ t| ≤
          (b : ℚ) / 2 := by
        rw [abs_le]
        constructor <;> linarith
      have hfin : ((b : ℚ) / 2) / ((b : ℚ) * (2 : ℚ) ^ t) ≤
          ((a : ℚ) / (b : ℚ)) * (2 : ℚ) ^ (-53 : Int) := by
        have heq : ((b : ℚ) / 2) / ((b : ℚ) * (2 : ℚ) ^ t) =
            ((2 : ℚ) ^ t)⁻¹ / 2 := by
          field_simp
          ring
        have hE2 : (2 : ℚ) ^ (floorLog2R a b) * (2 : ℚ) ^ (-53 : Int) =
            ((2 : ℚ) ^ t)⁻¹ / 2 := by
          rw [← zpow_add₀ (two_ne_zero : (2 : ℚ) ≠ 0)]
          have harith : floorLog2R a b + (-53) = -((t : Int)) + (-1) := by omega
          rw [harith, zpow_add₀ (two_ne_zero : (2 : ℚ) ≠ 0), zpow_neg, zpow_natCast]
          norm_num
          ring
        rw [heq, ← hE2]
        exact mul_le_mul_of_nonneg_right hlo (by positivity)
      calc |((rheNat (a * 2 ^ t) b : Nat) : ℚ) * (b : ℚ) - (a : ℚ) * (2 : ℚ) ^ t| /
            ((b : ℚ) * (2 : ℚ) ^ t)
          ≤ ((b : ℚ) / 2) / ((b : ℚ) * (2 : ℚ) ^ t) := by gcongr
        _ ≤ ((a : ℚ) / (b : ℚ)) * (2 : ℚ) ^ (-53 : Int) := hfin

/-- Correctly rounded multiplication keeps a positive mantissa and is within
one part in `2^53` of the exact product. -/
theorem fmulD_spec (x y : Nat × Int) (hx : 1 ≤ x.1) (hy : 1 ≤ y.1) :
    1 ≤ (fmulD x y).1 ∧
    |dval (fmulD x y) - dval x * dval y| ≤
      dval x * dval y * (2 : ℚ) ^ (-53 : Int) := by
  have hM : 1 ≤ x.1 * y.1 := Nat.mul_pos hx hy
  obtain ⟨p1, p2⟩ := divRound_spec (x.1 * y.1) 1 hM le_rfl
  rw [Nat.cast_one, div_one] at p2
  constructor
  · simpa only [fmulD] using p1
  · have hval : dval (fmulD x y) =
        dval (divRound (x.1 * y.1) 1) * (2 : ℚ) ^ (x.2 + y.2) := by
      simp only [fmulD, dval]
      rw [show (divRound (x.1 * y.1) 1).2 + x.2 + y.2 =
          (divRound (x.1 * y.1) 1).2 + (x.2 + y.2) by ring,
        zpow_add₀ (two_ne_zero : (2 : ℚ) ≠ 0)]
      ring
    have hprod : dval x * dval y =
        ((x.1 * y.1 : Nat) : ℚ) * (2 : ℚ) ^ (x.2 + y.2) := by
      simp only [dval]
      push_cast
      rw [zpow_add₀ (two_ne_zero : (2 : ℚ) ≠ 0)]
      ring
    have h2p : (0 : ℚ) < (2 : ℚ) ^ (x.2 + y.2) := zpow_pos (by norm_num) _
    rw [hval, hprod]
    calc |dval (divRound (x.1 * y.1) 1) * (2 : ℚ) ^ (x.2 + y.2) -
            ((x.1 * y.1 : Nat) : ℚ) * (2 : ℚ) ^ (x.2 + y.2)|
        = |dval (divRound (x.1 * y.1) 1) - ((x.1 * y.1 : Nat) : ℚ)| *
            (2 : ℚ) ^ (x.2 + y.2) := by
          rw [show dval (divRound (x.1 * y.1) 1) * (2 : ℚ) ^ (x.2 + y.2) -
              ((x.1 * y.1 : Nat) : ℚ) * (2 : ℚ) ^ (x.2 + y.2) =
              (dval (divRound (x.1 * y.1) 1) - ((x.1 * y.1 : Nat) : ℚ)) *
                (2 : ℚ) ^ (x.2 + y.2) by ring,
            abs_mul, abs_of_pos h2p]
      _ ≤ ((x.1 * y.1 : Nat) : ℚ) * (2 : ℚ) ^ (-53 : Int) * (2 : ℚ) ^ (x.2 + y.2) :=
          mul_le_mul_of_nonneg_right p2 (le_of_lt h2p)
      _ = ((x.1 * y.1 : Nat) : ℚ) * (2 : ℚ) ^ (x.2 + y.2) * (2 : ℚ) ^ (-53 : Int) := by
          ring

/-- `truncD` is the floor of the dyadic value: Python `int()` on a
nonnegative double. -/
theorem truncD_bounds (x : Nat × Int) :
    ((truncD x : Nat) : ℚ) ≤ dval x ∧ dval x < ((truncD x : Nat) : ℚ) + 1 := by
  simp only [truncD, dval]
  split_ifs with he
  · have heq : ((x.1 * 2 ^ x.2.toNat : Nat) : ℚ) = (x.1 : ℚ) * (2 : ℚ) ^ x.2 := by
      push_cast
      congr 1
      rw [← zpow_natCast]
      congr 1
      omega
    rw [heq]
    exact ⟨le_rfl, lt_add_one _⟩
  · have hzp : (2 : ℚ) ^ x.2 = ((2 : ℚ) ^ (-x.2).toNat)⁻¹ := by
      rw [← zpow_natCast (2 : ℚ) (-x.2).toNat, ← zpow_neg]
      congr 1
      omega
    have hdm := Nat.div_add_mod x.1 (2 ^ (-x.2).toNat)
    have hpow0 : 0 < 2 ^ (-x.2).toNat := by positivity
    have hr := Nat.mod_lt x.1 hpow0
    have hc : ((2 : ℚ) ^ (-x.2).toNat) * ((x.1 / 2 ^ (-x.2).toNat : Nat) : ℚ) +
        ((x.1 % 2 ^ (-x.2).toNat : Nat) : ℚ) = (x.1 : ℚ) := by
      exact_mod_cast hdm
    have hrq : ((x.1 % 2 ^ (-x.2).toNat : Nat) : ℚ) < (2 : ℚ) ^ (-x.2).toNat := by
      exact_mod_cast hr
    have hr0 : (0 : ℚ) ≤ ((x.1 % 2 ^ (-x.2).toNat : Nat) : ℚ) := Nat.cast_nonneg _
    have h2t : (0 : ℚ) < (2 : ℚ) ^ (-x.2).toNat := by positivity
    rw [hzp]
    constructor
    · rw [← div_eq_mul_inv, le_div_iff₀ h2t]
      linarith
    · rw [← div_eq_mul_inv, div_lt_iff₀ h2t]
      linarith

/-- Per-dimension behaviour of the resize arithmetic: scaling a dimension
`d ≤ L` by the rounded `1024 / L` and truncating lands within one pixel of
the exact `d * 1024 / L`, never exceeds 1024, and for the longer side
(`d = L`) is at least 1023. -/
theorem resize_dim_spec (d L : Nat) (hd : 1 ≤ d) (hL : 1024 < L) (hdL : d ≤ L) :
    truncD (fmulD (pyFloat d) (divRound 1024 L)) ≤ d * 1024 / L + 1 ∧
    d * 1024 / L ≤ truncD (fmulD (pyFloat d) (divRound 1024 L)) + 1 ∧
    truncD (fmulD (pyFloat d) (divRound 1024 L)) ≤ 1024 ∧
    (d = L → 1023 ≤ truncD (fmulD (pyFloat d) (divRound 1024 L))) := by
  have hL1 : 1 ≤ L := by omega
  have hLq : (0 : ℚ) < (L : ℚ) := by exact_mod_cast hL1
  have hdq : (1 : ℚ) ≤ (d : ℚ) := by exact_mod_cast hd
  have hdLq : (d : ℚ) ≤ (L : ℚ) := by exact_mod_cast hdL
  have hu_eq : (2 : ℚ) ^ (-53 : Int) = 1 / 9007199254740992 := by
    rw [show (-53 : Int) = -((53 : Nat) : Int) by norm_num, zpow_neg, zpow_natCast]
    norm_num
  obtain ⟨ps1, ps2⟩ := divRound_spec 1024 L (by norm_num) hL1
  obtain ⟨pp1, pp2⟩ := divRound_spec d 1 hd le_rfl
  rw [Nat.cast_one, div_one] at pp2
  obtain ⟨pm1, pm2⟩ := fmulD_spec (divRound d 1) (divRound 1024 L) pp1 ps1
  push_cast at ps2
  rw [hu_eq] at ps2 pp2 pm2
  have hwin : (d : ℚ) * 1024 / (L : ℚ) - 1 / 2 ≤
        dval (fmulD (pyFloat d) (divRound 1024 L)) ∧
      dval (fmulD (pyFloat d) (divRound 1024 L)) ≤ (d : ℚ) * 1024 / (L : ℚ) + 1 / 2 := by
    simp only [pyFloat]
    set c : ℚ := 1 / 9007199254740992 with hc
    have hc0 : (0 : ℚ) ≤ c := by norm_num
    have hc1 : c < 1 := by norm_num
    obtain ⟨S, hSv⟩ : ∃ s, dval (divRound 1024 L) = s := ⟨_, rfl⟩
    obtain ⟨P, hPv⟩ : ∃ p, dval (divRound d 1) = p := ⟨_, rfl⟩
    obtain ⟨T, hTv⟩ : ∃ t, dval (fmulD (divRound d 1) (divRound 1024 L)) = t := ⟨_, rfl⟩
    rw [hSv] at ps2
    rw [hPv] at pp2
    rw [hSv, hPv, hTv] at pm2
    rw [hTv]
    clear hSv hPv hTv pm1 ps1 pp1 hu_eq
    set s0 : ℚ := (1024 : ℚ) / (L : ℚ) with hs0
    have hs0pos : 0 < s0 := by positivity
    rw [abs_le] at ps2 pp2 pm2
    have hs_hi : S ≤ s0 + s0 * c := by linarith [ps2.2]
    have hs_lo : s0 - s0 * c ≤ S := by linarith [ps2.1]
    have hp_hi : P ≤ (d : ℚ) + (d : ℚ) * c := by linarith [pp2.2]
    have hp_lo : (d : ℚ) - (d : ℚ) * c ≤ P := by linarith [pp2.1]
    have hs_pos : 0 < S := by
      have hlt : s0 * c < s0 * 1 := mul_lt_mul_of_pos_left hc1 hs0pos
      linarith
    have hp_pos : 0 < P := by
      have hd0q : (0 : ℚ) < (d : ℚ) := lt_of_lt_of_le one_pos hdq
      have hlt : (d : ℚ) * c < (d : ℚ) * 1 := mul_lt_mul_of_pos_left hc1 hd0q
      linarith
    have ht_hi : T ≤ P * S + P * S * c := by linarith [pm2.2]
    have ht_lo : P * S - P * S * c ≤ T := by linarith [pm2.1]
    have hXeq : (d : ℚ) * 1024 / (L : ℚ) = (d : ℚ) * s0 := by
      rw [hs0]
      ring
    have hXle : (d : ℚ) * s0 ≤ 1024 := by
      rw [hs0, mul_div_assoc']
      rw [div_le_iff₀ hLq]
      linarith
    have hX0 : 0 < (d : ℚ) * s0 := by positivity
    have a1 : P * S ≤ ((d : ℚ) + (d : ℚ) * c) * (s0 + s0 * c) := by
      apply mul_le_mul hp_hi hs_hi (le_of_lt hs_pos)
      have hdc : (0 : ℚ) ≤ (d : ℚ) * c := mul_nonneg (by linarith) hc0
      linarith
    have a2 : ((d : ℚ) - (d : ℚ) * c) * (s0 - s0 * c) ≤ P * S := by
      apply mul_le_mul hp_lo hs_lo
      · have hlt : s0 * c ≤ s0 * 1 :=
          mul_le_mul_of_nonneg_left (le_of_lt hc1) (le_of_lt hs0pos)
        linarith
      · exact le_of_lt hp_pos
    have b1 : T ≤ ((d : ℚ) + (d : ℚ) * c) * (s0 + s0 * c) * (1 + c) := by
      have step := mul_le_mul_of_nonneg_right a1 (by linarith : (0 : ℚ) ≤ 1 + c)
      linarith [step]
    have b2 : ((d : ℚ) - (d : ℚ) * c) * (s0 - s0 * c) * (1 - c) ≤ T := by
      have step := mul_le_mul_of_nonneg_right a2 (by linarith : (0 : ℚ) ≤ 1 - c)
      linarith [step]
    have cube_hi : ((d : ℚ) + (d : ℚ) * c) * (s0 + s0 * c) * (1 + c) =
        (d : ℚ) * s0 * (1 + c) ^ 3 := by ring
    have cube_lo : ((d : ℚ) - (d : ℚ) * c) * (s0 - s0 * c) * (1 - c) =
        (d : ℚ) * s0 * (1 - c) ^ 3 := by ring
    have num_hi : (d : ℚ) * s0 * (1 + c) ^ 3 ≤ (d : ℚ) * s0 + 1 / 2 := by
      have expand : (d : ℚ) * s0 * (1 + c) ^ 3 =
          (d : ℚ) * s0 + (d : ℚ) * s0 * (3 * c + 3 * c ^ 2 + c ^ 3) := by ring
      have hfac : (0 : ℚ) ≤ 3 * c + 3 * c ^ 2 + c ^ 3 := by positivity
      have hcap : (d : ℚ) * s0 * (3 * c + 3 * c ^ 2 + c ^ 3) ≤
          1024 * (3 * c + 3 * c ^ 2 + c ^ 3) :=
        mul_le_mul_of_nonneg_right hXle hfac
      have hnum : (1024 : ℚ) * (3 * c + 3 * c ^ 2 + c ^ 3) ≤ 1 / 2 := by
        rw [hc]
        norm_num
      linarith [expand.le, expand.ge]
    have num_lo : (d : ℚ) * s0 - 1 / 2 ≤ (d : ℚ) * s0 * (1 - c) ^ 3 := by
      have expand : (d : ℚ) * s0 * (1 - c) ^ 3 =
          (d : ℚ) * s0 - (d : ℚ) * s0 * (3 * c - 3 * c ^ 2 + c ^ 3) := by ring
      have hfac : (0 : ℚ) ≤ 3 * c - 3 * c ^ 2 + c ^ 3 := by
        rw [hc]
        norm_num
      have hcap : (d : ℚ) * s0 * (3 * c - 3 * c ^ 2 + c ^ 3) ≤
          1024 * (3 * c - 3 * c ^ 2 + c ^ 3) :=
        mul_le_mul_of_nonneg_right hXle hfac
      have hnum : (1024 : ℚ) * (3 * c - 3 * c ^ 2 + c ^ 3) ≤ 1 / 2 := by
        rw [hc]
        norm_num
      linarith [expand.le, expand.ge]
    constructor
    · rw [hXeq]
      calc (d : ℚ) * s0 - 1 / 2 ≤ (d : ℚ) * s0 * (1 - c) ^ 3 := num_lo
        _ = ((d : ℚ) - (d : ℚ) * c) * (s0 - s0 * c) * (1 - c) := cube_lo.symm
        _ ≤ T := b2
    · rw [hXeq]
      calc T ≤ ((d : ℚ) + (d : ℚ) * c) * (s0 + s0 * c) * (1 + c) := b1
        _ = (d : ℚ) * s0 * (1 + c) ^ 3 := cube_hi
        _ ≤ (d : ℚ) * s0 + 1 / 2 := num_hi
  obtain ⟨hwlo, hwhi⟩ := hwin
  obtain ⟨htb1, htb2⟩ := truncD_bounds (fmulD (pyFloat d) (divRound 1024 L))
  obtain ⟨N, hNv⟩ : ∃ n, truncD (fmulD (pyFloat d) (divRound 1024 L)) = n := ⟨_, rfl⟩
  obtain ⟨T, hTv⟩ : ∃ t2, dval (fmulD (pyFloat d) (divRound 1024 L)) = t2 := ⟨_, rfl⟩
  rw [hNv, hTv] at htb1 htb2
  rw [hTv] at hwlo hwhi
  rw [hNv]
  clear hNv hTv
  have hnd1 : ((d * 1024 / L : Nat) : ℚ) ≤ (d : ℚ) * 1024 / (L : ℚ) := by
    rw [le_div_iff₀ hLq]
    exact_mod_cast Nat.div_mul_le_self (d * 1024) L
  have hnd2 : (d : ℚ) * 1024 / (L : ℚ) < ((d * 1024 / L : Nat) : ℚ) + 1 := by
    rw [div_lt_iff₀ hLq]
    have hmod := Nat.div_add_mod (d * 1024) L
    have hmlt := Nat.mod_lt (d * 1024) (show 0 < L by omega)
    have hlt : d * 1024 < (d * 1024 / L + 1) * L := by
      have heq2 : (d * 1024 / L + 1) * L = L * (d * 1024 / L) + L := by ring
      rw [heq2]
      omega
    exact_mod_cast hlt
  have hXle2 : (d : ℚ) * 1024 / (L : ℚ) ≤ 1024 := by
    rw [div_le_iff₀ hLq]
    linarith
  refine ⟨?_, ?_, ?_, ?_⟩
  · have hq : (N : ℚ) < ((d * 1024 / L : Nat) : ℚ) + 2 := by linarith
    have hn : N < d * 1024 / L + 2 := by exact_mod_cast hq
    omega
  · have hq : ((d * 1024 / L : Nat) : ℚ) < (N : ℚ) + 2 := by linarith
    have hn : d * 1024 / L < N + 2 := by exact_mod_cast hq
    omega
  · have hq : (N : ℚ) < (1025 : ℚ) := by linarith
    have hn : N < 1025 := by exact_mod_cast hq
    omega
  · intro hdl
    subst hdl
    have hdne : (d : ℚ) ≠ 0 := by positivity
    have hXeq1024 : (d : ℚ) * 1024 / (d : ℚ) = 1024 := by
      field_simp
    rw [hXeq1024] at hwlo
    have hq : (1022 : ℚ) < (N : ℚ) := by linarith
    have hn : 1022 < N := by exact_mod_cast hq
    omega

set_option maxRecDepth 40000 in
/-- C8 (as stated) is false on the code: for an 1122 × 800 image the
binary64 arithmetic of the source yields
`int(1122 * (1024/1122)) = int(1023.9999999999999) = 1023`, so the longer
side of the result is 1023 px, not 1024 px. -/
theorem resize_longer_side_1023_counterexample :
    (validate_and_resize_image (fun _ _ _ => (0 : Nat)) ⟨1122, 800, 0⟩ 1024).height = 1023 ∧
    (validate_and_resize_image (fun _ _ _ => (0 : Nat)) ⟨1122, 800, 0⟩ 1024).width = 730 ∧
    max (validate_and_resize_image (fun _ _ _ => (0 : Nat)) ⟨1122, 800, 0⟩ 1024).height
      (validate_and_resize_image (fun _ _ _ => (0 : Nat)) ⟨1122, 800, 0⟩ 1024).width ≠ 1024 := by
  refine ⟨rfl, rfl, by decide⟩

/-- C8 amended: for every decoded image whose longer side exceeds the
1024 px cap, the resize produces a longer side of 1023 or 1024 pixels (one
below the cap is possible because `int(d * (1024/L))` is computed in
binary64 arithmetic), and the aspect ratio is preserved within rounding:
each output dimension is within one pixel of the exactly scaled
`d * 1024 / max(height, width)`. -/
theorem resize_longer_side_spec {α : Type} (resample : Img α → Nat → Nat → α)
    (img : Img α) (hh : 0 < img.height) (hw : 0 < img.width)
    (hbig : 1024 < max img.height img.width) :
    (1023 ≤ max (validate_and_resize_image resample img 1024).height
        (validate_and_resize_image resample img 1024).width ∧
      max (validate_and_resize_image resample img 1024).height
        (validate_and_resize_image resample img 1024).width ≤ 1024) ∧
    ((validate_and_resize_image resample img 1024).height ≤
        img.height * 1024 / max img.height img.width + 1 ∧
      img.height * 1024 / max img.height img.width ≤
        (validate_and_resize_image resample img 1024).height + 1) ∧
    ((validate_and_resize_image resample img 1024).width ≤
        img.width * 1024 / max img.height img.width + 1 ∧
      img.width * 1024 / max img.height img.width ≤
        (validate_and_resize_image resample img 1024).width + 1) := by
  have hH : (validate_and_resize_image resample img 1024).height =
      truncD (fmulD (pyFloat img.height)
        (divRound 1024 (max img.height img.width))) := by
    simp only [validate_and_resize_image]
    rw [if_pos hbig]
  have hW : (validate_and_resize_image resample img 1024).width =
      truncD (fmulD (pyFloat img.width)
        (divRound 1024 (max img.height img.width))) := by
    simp only [validate_and_resize_image]
    rw [if_pos hbig]
  obtain ⟨h1, h2, h3, h4⟩ :=
    resize_dim_spec img.height (max img.height img.width) hh hbig
      (le_max_left _ _)
  obtain ⟨w1, w2, w3, w4⟩ :=
    resize_dim_spec img.width (max img.height img.width) hw hbig
      (le_max_right _ _)
  refine ⟨⟨?_, ?_⟩, ⟨?_, ?_⟩, ⟨?_, ?_⟩⟩
  · rw [hH, hW]
    rcases le_total img.height img.width with hle | hle
    · calc (1023 : Nat) ≤
          truncD (fmulD (pyFloat img.width)
            (divRound 1024 (max img.height img.width))) :=
            w4 (max_eq_right hle).symm
        _ ≤ _ := le_max_right _ _
    · calc (1023 : Nat) ≤
          truncD (fmulD (pyFloat img.height)
            (divRound 1024 (max img.height img.width))) :=
            h4 (max_eq_left hle).symm
        _ ≤ _ := le_max_left _ _
  · rw [hH, hW]
    exact max_le h3 w3
  · rw [hH]
    exact h1
  · rw [hH]
    exact h2
  · rw [hW]
    exact w1
  · rw [hW]
    exact w2

/-- Witness for C8 (amended) at the 1122 × 800 counterexample input: the
longer side lands in {1023, 1024} and both dimensions stay within one pixel
of the exact scaling. -/
theorem resize_longer_side_spec_witness :
    (1023 ≤ max (validate_and_resize_image (fun _ _ _ => (0 : Nat)) ⟨1122, 800, 0⟩ 1024).height
        (validate_and_resize_image (fun _ _ _ => (0 : Nat)) ⟨1122, 800, 0⟩ 1024).width ∧
      max (validate_and_resize_image (fun _ _ _ => (0 : Nat)) ⟨1122, 800, 0⟩ 1024).height
        (validate_and_resize_image (fun _ _ _ => (0 : Nat)) ⟨1122, 800, 0⟩ 1024).width ≤ 1024) ∧
    ((validate_and_resize_image (fun _ _ _ => (0 : Nat)) ⟨1122, 800, 0⟩ 1024).height ≤
        1122 * 1024 / max 1122 800 + 1 ∧
      1122 * 1024 / max 1122 800 ≤
        (validate_and_resize_image (fun _ _ _ => (0 : Nat)) ⟨1122, 800, 0⟩ 1024).height + 1) ∧
    ((validate_and_resize_image (fun _ _ _ => (0 : Nat)) ⟨1122, 800, 0⟩ 1024).width ≤
        800 * 1024 / max 1122 800 + 1 ∧
      800 * 1024 / max 1122 800 ≤
        (validate_and_resize_image (fun _ _ _ => (0 : Nat)) ⟨1122, 800, 0⟩ 1024).width + 1) :=
  resize_longer_side_spec (fun _ _ _ => (0 : Nat)) ⟨1122, 800, 0⟩
    (by decide) (by decide) (by decide)
